import Mathlib

/-!
Shallow embedding of the tidymac disk-cleanup core (Rust) in Lean 4,
with theorems checking the natural-language specification against it.

Modelling conventions:
* Paths are plain strings (the Rust code compares them with string equality
  after a lossy conversion).
* The filesystem is a list of (path, mtime) pairs; each entry is one atomic
  object (a file, or a directory treated as one unit, since the cleaner
  moves and removes whole directories).  A rename is remove-then-add, which
  is also the net effect of the copy-plus-unlink fallback in the source.
* Wall-clock times are seconds since the epoch as naturals; Rust
  Duration.as_secs and duration_since(..).unwrap_or_default() become
  truncated natural subtraction.
* External crates (walkdir entry streams, the SHA-256 implementation,
  image decoding, the home-directory lookup) are inputs or abstract
  parameters; everything from the repository itself is translated.
-/

namespace TidyMac

/-! ## Safety gate (src/common/safety.rs) -/

/-- Root-level paths that must never be deleted (safety.rs PROTECTED_PATHS). -/
def PROTECTED_PATHS : List String :=
  ["/", "/System", "/Applications", "/Users", "/Library", "/usr", "/bin",
   "/sbin", "/var", "/etc", "/opt", "/private", "/cores", "/Volumes"]

/-- Home subdirectories that must never be deleted entirely
(safety.rs PROTECTED_HOME_DIRS); the empty string stands for home itself. -/
def PROTECTED_HOME_DIRS : List String :=
  ["", "Desktop", "Documents", "Downloads", "Pictures", "Music", "Movies",
   "Library", "Applications", ".ssh", ".gnupg"]

/-- The concrete protected path obtained from a home-subdirectory entry
(safety.rs lines 59-63). -/
def homeSub (home d : String) : String :=
  if d == "" then home else home ++ "/" ++ d

/-- Translation of safety.rs is_protected.  The home directory is a
parameter standing for dirs::home_dir(); none models a machine without a
resolvable home. -/
def is_protected (home : Option String) (path : String) : Bool :=
  PROTECTED_PATHS.any (fun p => path == p)
  || match home with
     | none => false
     | some h =>
       path == h || PROTECTED_HOME_DIRS.any (fun d => path == homeSub h d)

/-- safety.rs MAX_FILES_PER_OPERATION. -/
def MAX_FILES_PER_OPERATION : Nat := 100000

/-- safety.rs MAX_BYTES_WARNING_THRESHOLD (50 GiB). -/
def MAX_BYTES_WARNING_THRESHOLD : Nat := 50 * 1024 * 1024 * 1024

/-- Translation of safety.rs validate_clean_operation. -/
def validate_clean_operation (file_count : Nat) (total_bytes : Nat) :
    Except String Unit :=
  if MAX_FILES_PER_OPERATION < file_count then
    Except.error "Operation would affect too many files. Use --yes to override."
  else if MAX_BYTES_WARNING_THRESHOLD < total_bytes then
    Except.error "Operation would delete more than the warning threshold. Use --yes to override."
  else
    Except.ok ()

/-- The protected set exactly as the spec enumerates it: the listed system
roots, the home directory, and the listed home subdirectories.  Written
from the specification text, to be compared with is_protected. -/
def protectedSetSpec (home : String) : List String :=
  PROTECTED_PATHS ++ [home] ++ PROTECTED_HOME_DIRS.map (homeSub home)

/-! ## Filesystem model -/

/-- The filesystem: each entry is an atomic object at a path with an mtime. -/
abbrev FS := List (String × Nat)

/-- Existence test (Rust Path::exists on an object the model tracks). -/
def fsExists (fs : FS) (p : String) : Bool :=
  fs.any (fun e => e.1 == p)

/-- Modification time of an object, none when absent (scanner/cache.rs
dir_mtime: a failed metadata call yields none). -/
def fsMtime (fs : FS) (p : String) : Option Nat :=
  (fs.find? (fun e => e.1 == p)).map (fun e => e.2)

/-- Remove the object at a path (fs::remove_file / remove_dir_all). -/
def fsRemove (fs : FS) (p : String) : FS :=
  fs.filter (fun e => !(e.1 == p))

/-- Rename an object from one path to another (fs::rename, or its
copy-plus-unlink fallback, which has the same net effect). -/
def fsMove (fs : FS) (src dst : String) : FS :=
  match fs.find? (fun e => e.1 == src) with
  | some e => (dst, e.2) :: fsRemove fs src
  | none => fs

/-! ## Scan items (src/scanner/targets.rs) -/

/-- Translation of targets.rs FileEntry. -/
structure FileEntryE where
  path : String
  size_bytes : Nat
  modified : Option Nat
deriving Repr, DecidableEq

/-- Translation of targets.rs ScanItem.  Category and safety are kept as
their display strings, which is all the cleaner consumes. -/
structure ScanItemE where
  name : String
  category : String
  path : String
  size_bytes : Nat
  file_count : Nat
  safety : String
  reason : String
  files : List FileEntryE
deriving Repr, DecidableEq

/-! ## Manifest (src/cleaner/manifest.rs) -/

/-- Translation of manifest.rs ManifestItem. -/
structure ManifestItemE where
  original_path : String
  staged_path : Option String
  size_bytes : Nat
  category : String
  safety : String
  is_dir : Bool
  success : Bool
  error : Option String
deriving Repr, DecidableEq

/-- Translation of manifest.rs CleanManifest. -/
structure CleanManifestE where
  session_id : String
  timestamp : Nat
  profile : String
  mode : String
  total_bytes : Nat
  total_files : Nat
  expires_at : Option Nat
  restored : Bool
  items : List ManifestItemE
  errors : List String
deriving Repr, DecidableEq

/-- Translation of CleanManifest::new.  The wall clock and the session id
derived from it are parameters (chrono is external); retention is days. -/
def manifestNew (profile mode : String) (retention_days : Nat)
    (now : Nat) (sid : String) : CleanManifestE :=
  { session_id := sid
    timestamp := now
    profile := profile
    mode := mode
    total_bytes := 0
    total_files := 0
    expires_at :=
      if mode == "soft_delete" then some (now + retention_days * 86400)
      else none
    restored := false
    items := []
    errors := [] }

/-- Translation of CleanManifest::add_item: successful items feed the
totals, every item is appended to the list. -/
def addItem (m : CleanManifestE) (it : ManifestItemE) : CleanManifestE :=
  let m' :=
    if it.success then
      { m with total_bytes := m.total_bytes + it.size_bytes,
               total_files := m.total_files + 1 }
    else m
  { m' with items := m'.items ++ [it] }

/-- Translation of CleanManifest::add_error. -/
def addError (m : CleanManifestE) (e : String) : CleanManifestE :=
  { m with errors := m.errors ++ [e] }

/-! ## Scan cache (src/scanner/cache.rs) -/

/-- Translation of cache.rs CacheEntry. -/
structure CacheEntryE where
  path : String
  mtime_secs : Nat
  size_bytes : Nat
  file_count : Nat
  category : String
  name : String
  safety : String
  reason : String
deriving Repr, DecidableEq

/-- Translation of cache.rs CacheStats. -/
structure CacheStatsE where
  hits : Nat
  misses : Nat
  invalidated : Nat
deriving Repr, DecidableEq

/-- Translation of cache.rs ScanCache.  The HashMap of entries becomes an
association list keyed by the path string. -/
structure ScanCacheE where
  profile : String
  entries : List (String × CacheEntryE)
  stats : CacheStatsE
deriving Repr, DecidableEq

/-- Translation of ScanCache::check.  The current directory mtime is a
parameter standing for dir_mtime(path); when it is none the function
returns early with no statistics change, exactly like the source. -/
def scanCacheCheck (c : ScanCacheE) (p : String) (currentMtime : Option Nat) :
    Option CacheEntryE × ScanCacheE :=
  match currentMtime with
  | none => (none, c)
  | some m =>
    match c.entries.find? (fun e => e.1 == p) with
    | some e =>
      if e.2.mtime_secs == m then
        (some e.2, { c with stats := { c.stats with hits := c.stats.hits + 1 } })
      else
        (none, { c with stats := { c.stats with invalidated := c.stats.invalidated + 1 } })
    | none =>
      (none, { c with stats := { c.stats with misses := c.stats.misses + 1 } })

/-- Translation of ScanCache::invalidate: drop the entry for a path. -/
def scanCacheInvalidate (c : ScanCacheE) (p : String) : ScanCacheE :=
  { c with entries := c.entries.filter (fun e => !(e.1 == p)) }

/-! ## System state threaded through the clean engine

The engine mutates the real filesystem; the embedding threads an explicit
state: the filesystem objects, the set of staging session directories, the
daily-log contents, the on-disk scan cache, and whether the base data
directories have been created (Config::init_dirs). -/

structure SysState where
  fs : FS
  sessions : List String
  logs : List CleanManifestE
  cache : ScanCacheE
  baseDirs : Bool
deriving Repr, DecidableEq

/-! ## Staging mover (src/cleaner/staging.rs) -/

/-- Left-pad a number to the six-digit staged file name
(staging.rs format with 06 width). -/
def pad6 (n : Nat) : String :=
  let s := toString n
  String.mk (List.replicate (6 - s.length) '0') ++ s

/-- Staging directory for a session (Config::staging_dir().join(id)). -/
def stagingSessionDir (sid : String) : String :=
  ".tidymac/staging/" ++ sid

/-- Files subdirectory of a session (CleanManifest::staging_files_dir). -/
def stagingFilesDir (sid : String) : String :=
  stagingSessionDir sid ++ "/files"

/-- Translation of staging.rs stage_single_path: fail when the original
does not exist, otherwise move it (rename, or the equivalent
copy-plus-unlink fallback). -/
def stage_single_path (original staged : String) (fs : FS) :
    Except String FS :=
  if fsExists fs original then
    Except.ok (fsMove fs original staged)
  else
    Except.error ("Path does not exist: " ++ original)

/-- One clean target: path, size, and the category and safety strings of
the item it came from.  stage_files and the hard-delete loop process the
item path itself when the file list is empty, and every file entry
otherwise (staging.rs lines 40-131, engine.rs lines 166-210). -/
def cleanTargets (items : List ScanItemE) : List (String × Nat × String × String) :=
  items.flatMap (fun it =>
    if it.files.isEmpty then
      [(it.path, it.size_bytes, it.category, it.safety)]
    else
      it.files.map (fun f => (f.path, f.size_bytes, it.category, it.safety)))

/-- Body of the stage_files loop for one target: build the staged name
from the counter, attempt the move, and record a manifest item either way.
The is_dir flag comes from a live stat in the source; objects are atomic
in the model, so it is recorded as false. -/
def stageOne (filesDir : String) (counter : Nat)
    (t : String × Nat × String × String) (fs : FS) : ManifestItemE × FS :=
  let staged := filesDir ++ "/" ++ pad6 counter
  match stage_single_path t.1 staged fs with
  | Except.ok fs' =>
    ({ original_path := t.1, staged_path := some staged,
       size_bytes := t.2.1, category := t.2.2.1, safety := t.2.2.2,
       is_dir := false, success := true, error := none }, fs')
  | Except.error e =>
    ({ original_path := t.1, staged_path := none,
       size_bytes := t.2.1, category := t.2.2.1, safety := t.2.2.2,
       is_dir := false, success := false,
       error := some ("Failed to stage: " ++ e) }, fs)

/-- The stage_files loop over the flattened target list, threading the
running file counter, the manifest, and the filesystem. -/
def stageLoop (filesDir : String) (counter : Nat)
    (ts : List (String × Nat × String × String))
    (m : CleanManifestE) (fs : FS) : CleanManifestE × FS :=
  match ts with
  | [] => (m, fs)
  | t :: rest =>
    let res := stageOne filesDir counter t fs
    let m' :=
      match res.1.error with
      | some e => addError (addItem m res.1) e
      | none => addItem m res.1
    stageLoop filesDir (counter + 1) rest m' res.2

/-- Translation of staging.rs stage_files: create the session files
directory, then stage every target, numbering staged names from 000001. -/
def stage_files (items : List ScanItemE) (m : CleanManifestE)
    (st : SysState) : CleanManifestE × SysState :=
  let st' := { st with sessions := m.session_id :: st.sessions }
  let res := stageLoop (stagingFilesDir m.session_id) 1 (cleanTargets items) m st'.fs
  (res.1, { st' with fs := res.2 })

/-- Translation of CleanManifest::save: the soft-delete session directory
already exists in the model when save runs; every save appends one line
to the daily log. -/
def manifestSave (m : CleanManifestE) (st : SysState) : SysState :=
  { st with logs := m :: st.logs }

/-- Translation of staging.rs restore_single_path: refuse when the staged
object is gone or when something already exists at the original path,
otherwise move back. -/
def restore_single_path (staged original : String) (fs : FS) :
    Except String FS :=
  if fsExists fs staged then
    if fsExists fs original then
      Except.error ("Original path already exists (will not overwrite): " ++ original)
    else
      Except.ok (fsMove fs staged original)
  else
    Except.error ("Staged file no longer exists: " ++ staged)

/-- Report from a restore operation (staging.rs RestoreReport). -/
structure RestoreReportE where
  session_id : String
  restored_count : Nat
  restored_bytes : Nat
  errors : List String
deriving Repr, DecidableEq

/-- Loop of restore_session over the restorable items: per-item failures
are accumulated and the batch continues. -/
def restoreLoop (its : List ManifestItemE) (count bytes : Nat)
    (errs : List String) (fs : FS) : Nat × Nat × List String × FS :=
  match its with
  | [] => (count, bytes, errs, fs)
  | i :: rest =>
    match restore_single_path (i.staged_path.getD "") i.original_path fs with
    | Except.ok fs' =>
      restoreLoop rest (count + 1) (bytes + i.size_bytes) errs fs'
    | Except.error e =>
      restoreLoop rest count bytes
        (errs ++ ["Failed to restore " ++ i.original_path ++ ": " ++ e]) fs

/-- Translation of staging.rs restore_session.  The manifest is passed
directly (load_from_session is disk I/O); the function always returns the
resulting filesystem and manifest so that the no-mutation refusals are
visible. -/
def restore_session (m : CleanManifestE) (fs : FS) :
    Except String RestoreReportE × FS × CleanManifestE :=
  if m.restored then
    (Except.error ("Session has already been restored: " ++ m.session_id), fs, m)
  else
    let restorable := m.items.filter (fun i => i.success && i.staged_path.isSome)
    if restorable.isEmpty then
      (Except.error ("No restorable items in session: " ++ m.session_id), fs, m)
    else
      let res := restoreLoop restorable 0 0 [] fs
      let m' := { m with restored := true }
      (Except.ok { session_id := m.session_id, restored_count := res.1,
                   restored_bytes := res.2.1, errors := res.2.2.1 },
       res.2.2.2, m')

/-! ## Clean engine (src/cleaner/engine.rs) -/

/-- Translation of engine.rs CleanMode. -/
inductive CleanModeE where
  | dryRun
  | softDelete
  | hardDelete
deriving Repr, DecidableEq

/-- Translation of engine.rs CleanReport. -/
structure CleanReportE where
  mode : CleanModeE
  files_removed : Nat
  bytes_freed : Nat
  session_id : Option String
  errors : List String
deriving Repr, DecidableEq

/-- Translation of engine.rs hard_delete_path: a missing path is already
gone and counts as success; otherwise the object is removed.  Removal of
an existing object cannot fail in the model. -/
def hard_delete_path (p : String) (fs : FS) : FS :=
  if fsExists fs p then fsRemove fs p else fs

/-- Loop body of clean_hard_delete over the flattened targets. -/
def hardLoop (ts : List (String × Nat × String × String))
    (m : CleanManifestE) (fs : FS) : CleanManifestE × FS :=
  match ts with
  | [] => (m, fs)
  | t :: rest =>
    let fs' := hard_delete_path t.1 fs
    let mi : ManifestItemE :=
      { original_path := t.1, staged_path := none,
        size_bytes := t.2.1, category := t.2.2.1, safety := t.2.2.2,
        is_dir := false, success := true, error := none }
    hardLoop rest (addItem m mi) fs'

/-- Translation of engine.rs clean_dry_run: tally counts and bytes with no
mutation. -/
def clean_dry_run (items : List ScanItemE) : CleanReportE :=
  { mode := CleanModeE.dryRun
    files_removed := (cleanTargets items).length
    bytes_freed := ((cleanTargets items).map (fun t => t.2.1)).sum
    session_id := none
    errors := [] }

/-- Translation of engine.rs clean, the single entry point:
load config and create the base directories, check every candidate path
(item paths and file-entry paths) against the safety gate, and only then
dispatch on the mode.  The home directory, wall clock, session id, and
configured retention are parameters standing for their external sources. -/
def clean (home : Option String) (now : Nat) (sid : String)
    (retention_days : Nat) (profile : String)
    (items : List ScanItemE) (mode : CleanModeE) (st : SysState) :
    Except String CleanReportE × SysState :=
  let st := { st with baseDirs := true }
  match items.find? (fun it =>
      is_protected home it.path
      || it.files.any (fun f => is_protected home f.path)) with
  | some it =>
    (Except.error ("SAFETY: Refusing to clean protected path: " ++ it.path), st)
  | none =>
    match mode with
    | CleanModeE.dryRun => (Except.ok (clean_dry_run items), st)
    | CleanModeE.softDelete =>
      let m0 := manifestNew profile "soft_delete" retention_days now sid
      let res := stage_files items m0 st
      let st'' := manifestSave res.1 res.2
      (Except.ok { mode := CleanModeE.softDelete,
                   files_removed := res.1.total_files,
                   bytes_freed := res.1.total_bytes,
                   session_id := some res.1.session_id,
                   errors := res.1.errors }, st'')
    | CleanModeE.hardDelete =>
      let m0 := manifestNew profile "hard_delete" 0 now sid
      let res := hardLoop (cleanTargets items) m0 st.fs
      let st' := manifestSave res.1 { st with fs := res.2 }
      (Except.ok { mode := CleanModeE.hardDelete,
                   files_removed := res.1.total_files,
                   bytes_freed := res.1.total_bytes,
                   session_id := none,
                   errors := res.1.errors }, st')

/-! ## Walker (src/scanner/walker.rs, walk_target loop) -/

/-- One entry yielded by the walkdir iterator over a base path: its path,
whether it is a directory, its extension, its physical size
(st_blocks times 512), and its mtime when readable. -/
structure WalkEntryE where
  path : String
  isDir : Bool
  ext : Option String
  size_bytes : Nat
  modified : Option Nat
deriving Repr, DecidableEq

/-- The pieces of a ScanTarget the walker loop consumes: whether the
category is DownloadedDmg, the recursive flag, and the optional
minimum-age threshold in days. -/
structure ScanTargetE where
  name : String
  downloadedDmg : Bool
  recursive : Bool
  min_age_days : Option Nat
deriving Repr, DecidableEq

/-- The extension filter applied for DownloadedDmg targets
(walker.rs lines 51-59). -/
def dmgPass (t : ScanTargetE) (e : WalkEntryE) : Bool :=
  if t.downloadedDmg then
    match e.ext with
    | some x => x == "dmg" || x == "pkg"
    | none => false
  else true

/-- The per-entry decision of the walk_target loop (walker.rs lines
42-91): skip directories, apply the extension filter, then the
minimum-age filter, which skips a file whose age is strictly below
min_days times 86400 seconds. -/
def keepEntry (t : ScanTargetE) (now : Nat) (e : WalkEntryE) : Bool :=
  if e.isDir then false
  else if !dmgPass t e then false
  else
    match t.min_age_days, e.modified with
    | some d, some m => if now - m < d * 86400 then false else true
    | _, _ => true

/-- The file entries collected by walk_target from one stream of walkdir
entries. -/
def walkFiles (t : ScanTargetE) (now : Nat) (entries : List WalkEntryE) :
    List FileEntryE :=
  (entries.filter (keepEntry t now)).map
    (fun e => { path := e.path, size_bytes := e.size_bytes, modified := e.modified })

/-! ## Stale node_modules scanner (src/scanner/walker.rs find_node_modules)

The directory tree is a mutual inductive so the traversal is structural.
Each node carries its name, mtime, and, for files, physical size. -/

mutual
inductive FNode where
  | file (name : String) (size : Nat) (mtime : Nat) : FNode
  | dir (name : String) (mtime : Nat) (children : FForest) : FNode
inductive FForest where
  | nil : FForest
  | cons (head : FNode) (tail : FForest) : FForest
end

/-- Name of a node. -/
def FNode.name : FNode → String
  | FNode.file n _ _ => n
  | FNode.dir n _ _ => n

/-- Mtime of a node. -/
def FNode.mtime : FNode → Nat
  | FNode.file _ _ m => m
  | FNode.dir _ m _ => m

/-- Directory test for a node. -/
def FNode.isDir : FNode → Bool
  | FNode.file _ _ _ => false
  | FNode.dir _ _ _ => true

mutual
/-- walker.rs dir_size on a node: sum of the physical sizes of all files
in the subtree. -/
def dirSizeN : FNode → Nat
  | FNode.file _ s _ => s
  | FNode.dir _ _ c => dirSizeF c
/-- dir_size over a forest. -/
def dirSizeF : FForest → Nat
  | FForest.nil => 0
  | FForest.cons h t => dirSizeN h + dirSizeF t
end

/-- Mtime of the direct child with the given name, none when absent
(the fs::metadata call on parent.join(name)). -/
def findChildMtime : FForest → String → Option Nat
  | FForest.nil, _ => none
  | FForest.cons h t, nm =>
    if h.name == nm then some h.mtime else findChildMtime t nm

/-- Hidden-name test: the name starts with a dot (String::starts_with,
written on the character list so it evaluates in the kernel). -/
def startsWithDot (s : String) : Bool :=
  match s.data with
  | [] => false
  | c :: _ => c == '.'

/-- The filter_entry predicate of find_node_modules (walker.rs lines
152-158): refuse node_modules below the root, hidden names, and Library.
Per walkdir semantics a refused entry is neither yielded nor descended
into. -/
def fnmPred (name : String) (depth : Nat) : Bool :=
  !(name == "node_modules" && decide (0 < depth))
  && !(startsWithDot name)
  && !(name == "Library")

mutual
/-- find_node_modules on one walkdir entry: apply the filter_entry
predicate; on a yielded directory named node_modules, judge staleness by
the mtime of package.json among its siblings (missing means stale), then
descend.  siblings is the forest of the entry's parent directory. -/
def fnmNode (now thr : Nat) (siblings : FForest) (n : FNode)
    (path : String) (depth : Nat) : List FileEntryE :=
  if fnmPred n.name depth then
    let hits :=
      if n.name == "node_modules" && n.isDir then
        let stale :=
          match findChildMtime siblings "package.json" with
          | some m => decide (thr < now - m)
          | none => true
        if stale then
          [{ path := path, size_bytes := dirSizeN n, modified := some n.mtime }]
        else []
      else []
    hits ++
      match n with
      | FNode.file _ _ _ => []
      | FNode.dir _ _ c => fnmForest now thr c c path (depth + 1)
  else []
termination_by structural n
/-- find_node_modules over the children of one directory. -/
def fnmForest (now thr : Nat) (siblings rem : FForest)
    (parentPath : String) (depth : Nat) : List FileEntryE :=
  match rem with
  | FForest.nil => []
  | FForest.cons h t =>
    fnmNode now thr siblings h (parentPath ++ "/" ++ h.name) depth
      ++ fnmForest now thr siblings t parentPath depth
termination_by structural rem
end

/-- Translation of walker.rs find_node_modules: walk each search root
(given as its absolute path and its tree) with the filter, collecting
stale node_modules directories.  The stale threshold is stale_days times
86400 seconds; the root has no siblings inside the model. -/
def find_node_modules (roots : List (String × FNode)) (stale_days : Nat)
    (now : Nat) : List FileEntryE :=
  roots.flatMap (fun r => fnmNode now (stale_days * 86400) FForest.nil r.2 r.1 0)

/-! ## Hasher (src/duplicates/hasher.rs)

A file is a path with its byte content.  The SHA-256 implementation lives
in an external crate; it is modelled as an abstract streaming hasher:
a state type with an initial state, an update on a byte chunk, and a
finalizer.  The source-level structure of quick_hash (one read of up to
4096 bytes, one update) and full_hash (a loop of reads of up to one MiB)
is translated exactly. -/

/-- A file with its content, the input to the hashing operations. -/
structure FileM where
  path : String
  content : List Nat
deriving Repr, DecidableEq

/-- Split a byte list into the successive chunks a 1 MiB read loop
produces. -/
def chunks1M (l : List Nat) : List (List Nat) :=
  if h : l = [] then []
  else l.take 1048576 :: chunks1M (l.drop 1048576)
termination_by l.length
decreasing_by
  have hp : 0 < l.length := List.length_pos.mpr h
  simp only [List.length_drop]
  omega

/-- Translation of hasher.rs quick_hash: hash the first 4096 bytes (the
whole content when shorter) with one update. -/
def quick_hash {σ : Type} (update : σ → List Nat → σ) (init : σ)
    (finalize : σ → List Nat) (f : FileM) : List Nat :=
  finalize (update init (f.content.take 4096))

/-- Translation of hasher.rs full_hash: stream the content through the
hasher in 1 MiB chunks. -/
def full_hash {σ : Type} (update : σ → List Nat → σ) (init : σ)
    (finalize : σ → List Nat) (f : FileM) : List Nat :=
  finalize ((chunks1M f.content).foldl update init)

/-- Append a value to the bucket of its key, preserving first-seen key
order (the model of HashMap entry().or_default().push()). -/
def groupAdd {κ α : Type} [BEq κ] (k : κ) (a : α) :
    List (κ × List α) → List (κ × List α)
  | [] => [(k, [a])]
  | (k', l) :: t =>
    if k == k' then (k', l ++ [a]) :: t else (k', l) :: groupAdd k a t

/-- Group a list by a key function. -/
def groupListBy {κ α : Type} [BEq κ] (key : α → κ) (l : List α) :
    List (κ × List α) :=
  l.foldl (fun acc a => groupAdd (key a) a acc) []

/-- Drop singleton groups (the retain with len greater than one in each
group_by function). -/
def retainMulti {κ α : Type} (g : List (κ × List α)) : List (κ × List α) :=
  g.filter (fun kv => decide (1 < kv.2.length))

/-- Translation of hasher.rs group_by_size, with logical length as the
size (the source uses metadata len). -/
def group_by_size (files : List FileM) : List (Nat × List FileM) :=
  retainMulti (groupListBy (fun f => f.content.length) files)

/-- Translation of hasher.rs group_by_quick_hash. -/
def group_by_quick_hash {σ : Type} (update : σ → List Nat → σ) (init : σ)
    (finalize : σ → List Nat) (files : List FileM) :
    List (List Nat × List FileM) :=
  retainMulti (groupListBy (quick_hash update init finalize) files)

/-- Translation of hasher.rs group_by_full_hash. -/
def group_by_full_hash {σ : Type} (update : σ → List Nat → σ) (init : σ)
    (finalize : σ → List Nat) (files : List FileM) :
    List (List Nat × List FileM) :=
  retainMulti (groupListBy (full_hash update init finalize) files)

/-! ## Duplicate groups (src/duplicates/perceptual.rs, grouper.rs) -/

/-- Translation of perceptual.rs MatchType. -/
inductive MatchTypeE where
  | exact
  | perceptuallySimilar
deriving Repr, DecidableEq

/-- Translation of perceptual.rs SimilarFile.  Similarity is a rational;
the distances divided by 256 the source computes are exact in its float
type as well. -/
structure SimilarFileE where
  path : String
  size_bytes : Nat
  similarity : Rat
deriving Repr, DecidableEq

/-- Translation of perceptual.rs SimilarGroup. -/
structure SimilarGroupE where
  members : List SimilarFileE
  wasted_bytes : Nat
  match_type : MatchTypeE
deriving Repr, DecidableEq

/-- Sum of member sizes. -/
def sumSizes (l : List SimilarFileE) : Nat :=
  (l.map (fun m => m.size_bytes)).sum

/-- Stable insertion step of the sort by size descending. -/
def insertBySizeDesc (a : SimilarFileE) : List SimilarFileE → List SimilarFileE
  | [] => [a]
  | b :: t =>
    if b.size_bytes < a.size_bytes then a :: b :: t
    else b :: insertBySizeDesc a t

/-- Stable sort of members by size descending (Rust slice sort_by with the
reversed size comparator). -/
def sortBySizeDesc (l : List SimilarFileE) : List SimilarFileE :=
  l.foldr insertBySizeDesc []

/-- Stable insertion step of the sort of groups by wasted bytes
descending. -/
def insertByWastedDesc (a : SimilarGroupE) : List SimilarGroupE → List SimilarGroupE
  | [] => [a]
  | b :: t =>
    if b.wasted_bytes < a.wasted_bytes then a :: b :: t
    else b :: insertByWastedDesc a t

/-- Stable sort of groups by wasted bytes descending. -/
def sortByWastedDesc (l : List SimilarGroupE) : List SimilarGroupE :=
  l.foldr insertByWastedDesc []

/-- Build one exact duplicate group from the files sharing a full hash
(grouper.rs lines 104-127): members with similarity one, sorted by size
descending, wasted bytes the sum of all but the first. -/
def mkExactGroup (paths : List FileM) : SimilarGroupE :=
  let members := paths.map (fun p =>
    { path := p.path, size_bytes := p.content.length, similarity := (1 : Rat) })
  let sorted := sortBySizeDesc members
  { members := sorted
    wasted_bytes := sumSizes (sorted.drop 1)
    match_type := MatchTypeE.exact }

/-- A perceptual hash result (perceptual.rs PerceptualHash): the 256-bit
fingerprint is a list of booleans, computed by the external image crate. -/
structure PerceptualHashE where
  path : String
  hash : List Bool
  size_bytes : Nat
deriving Repr, DecidableEq

/-- Hamming distance between two fingerprints. -/
def hammingDist (a b : List Bool) : Nat :=
  ((a.zip b).filter (fun p => !(p.1 == p.2))).length

/-- Translation of perceptual.rs find_similar_groups, as the equivalent
recursion of its greedy single-link sweep: the first unassigned member
seeds a group, every later unassigned member within the distance bound is
attached and marked assigned, and singleton groups are dropped.  The
maximum distance is passed directly; the source derives it from the float
threshold (an external conversion).  Groups end sorted by wasted bytes
descending. -/
def similarSweep (maxDistance : Nat) : List PerceptualHashE → List SimilarGroupE
  | [] => []
  | h :: rest =>
    let near := rest.filter (fun j => decide (hammingDist h.hash j.hash ≤ maxDistance))
    if near.isEmpty then similarSweep maxDistance rest
    else
      let far := rest.filter (fun j => !(decide (hammingDist h.hash j.hash ≤ maxDistance)))
      let members :=
        { path := h.path, size_bytes := h.size_bytes, similarity := (1 : Rat) }
          :: near.map (fun j =>
            { path := j.path, size_bytes := j.size_bytes,
              similarity := 1 - (hammingDist h.hash j.hash : Rat) / 256 })
      let sorted := sortBySizeDesc members
      { members := sorted
        wasted_bytes := sumSizes (sorted.drop 1)
        match_type := MatchTypeE.perceptuallySimilar }
        :: similarSweep maxDistance far
termination_by l => l.length
decreasing_by
  · simp only [List.length_cons]
    exact Nat.lt_succ_of_le (Nat.le_refl _)
  · simp only [List.length_cons]
    exact Nat.lt_succ_of_le (List.length_filter_le _ _)

/-- find_similar_groups: the sweep followed by the final sort by wasted
bytes descending (perceptual.rs line 128). -/
def find_similar_groups (hashes : List PerceptualHashE) (maxDistance : Nat) :
    List SimilarGroupE :=
  sortByWastedDesc (similarSweep maxDistance hashes)

/-- Results of the duplicate pipeline (grouper.rs DupResults, the fields
the invariants concern). -/
structure DupResultsE where
  exact_groups : List SimilarGroupE
  similar_groups : List SimilarGroupE
  files_scanned : Nat
  total_groups : Nat
  total_wasted : Nat
deriving Repr, DecidableEq

/-- Translation of grouper.rs find_duplicates from pass 1 on.  The
collected candidate files are the input (collect_files walks the real
disk); the perceptual hashes are likewise inputs when pass 4 runs.
Pass 1 groups by size, pass 2 by 4 KiB-prefix hash inside each size
group, pass 3 by full hash inside each surviving group, building exact
groups; pass 4 forms perceptually similar groups and drops any whose
members all already belong to an exact group. -/
def find_duplicates {σ : Type} (update : σ → List Nat → σ) (init : σ)
    (finalize : σ → List Nat) (all_files : List FileM)
    (perceptual : Bool) (phashes : List PerceptualHashE)
    (maxDistance : Nat) : DupResultsE :=
  let size_groups := group_by_size all_files
  let quick_candidates := size_groups.flatMap (fun kv =>
    (group_by_quick_hash update init finalize kv.2).map (fun g => g.2))
  let exact0 := quick_candidates.flatMap (fun g =>
    (group_by_full_hash update init finalize g).map (fun kv => mkExactGroup kv.2))
  let exact := sortByWastedDesc exact0
  let similar :=
    if perceptual then
      let sg := find_similar_groups phashes maxDistance
      let exactPaths := exact.flatMap (fun g => g.members.map (fun m => m.path))
      sg.filter (fun g => g.members.any (fun m => !(exactPaths.contains m.path)))
    else []
  { exact_groups := exact
    similar_groups := similar
    files_scanned := all_files.length
    total_groups := exact.length + similar.length
    total_wasted := (exact.map (fun g => g.wasted_bytes)).sum
      + (similar.map (fun g => g.wasted_bytes)).sum }

/-! ## Properties under verification (stated over the embedding) -/

/-- Placeholder member used only as the headD default. -/
def memberDefault : SimilarFileE := { path := "", size_bytes := 0, similarity := 1 }

/-- The spec invariant on one duplicate group: at least two members,
members sorted by size descending, the first member of maximum size, and
wasted bytes the sum of the sizes of all members but the first. -/
def groupInvariant (g : SimilarGroupE) : Prop :=
  2 ≤ g.members.length
  ∧ g.members.Pairwise (fun x y => y.size_bytes ≤ x.size_bytes)
  ∧ (∀ m ∈ g.members, m.size_bytes ≤ (g.members.headD memberDefault).size_bytes)
  ∧ g.wasted_bytes = sumSizes (g.members.drop 1)

/-- The spec invariant on manifest totals: total_files counts exactly the
successful items and total_bytes sums exactly their sizes. -/
def manifestTotalsOk (m : CleanManifestE) : Prop :=
  m.total_files = (m.items.filter (fun i => i.success)).length
  ∧ m.total_bytes = ((m.items.filter (fun i => i.success)).map (fun i => i.size_bytes)).sum

/-! ## Concrete instances used by the witnesses and counterexamples -/

/-- Empty cache statistics. -/
def statsZero : CacheStatsE := { hits := 0, misses := 0, invalidated := 0 }

/-- An empty scan cache for the default profile. -/
def cacheEmpty : ScanCacheE := { profile := "default", entries := [], stats := statsZero }

/-- A scan item whose path is the protected /System root. -/
def itemSystem : ScanItemE :=
  { name := "sys", category := "System Cache", path := "/System",
    size_bytes := 10, file_count := 0, safety := "Dangerous", reason := "",
    files := [] }

/-- A state owning only the /System object. -/
def stSystem : SysState :=
  { fs := [("/System", 0)], sessions := [], logs := [], cache := cacheEmpty,
    baseDirs := false }

/-- A scan item with a single file entry just above the 50 GiB warning
threshold. -/
def itemHuge : ScanItemE :=
  { name := "big", category := "Large File", path := "/tmp/big",
    size_bytes := 0, file_count := 1, safety := "Caution", reason := "",
    files := [{ path := "/tmp/bigfile", size_bytes := 53687091201,
                modified := none }] }

/-- A state owning the oversized file. -/
def stHuge : SysState :=
  { fs := [("/tmp/bigfile", 0)], sessions := [], logs := [], cache := cacheEmpty,
    baseDirs := false }

/-- A cache entry for a scanned cache directory. -/
def entryCached : CacheEntryE :=
  { path := "/tmp/cachedir", mtime_secs := 5, size_bytes := 100,
    file_count := 3, category := "User Cache", name := "c", safety := "Safe",
    reason := "" }

/-- A scan item targeting the cached directory itself. -/
def itemCached : ScanItemE :=
  { name := "c", category := "User Cache", path := "/tmp/cachedir",
    size_bytes := 100, file_count := 3, safety := "Safe", reason := "",
    files := [] }

/-- A state whose cache holds an entry for the directory about to be
cleaned. -/
def stCached : SysState :=
  { fs := [("/tmp/cachedir", 5)], sessions := [], logs := [],
    cache := { profile := "default",
               entries := [("/tmp/cachedir", entryCached)],
               stats := statsZero },
    baseDirs := true }

/-- A scan item with one stageable file and one missing file, so soft
delete records both a success and a failure. -/
def itemMixed : ScanItemE :=
  { name := "m", category := "Logs", path := "/tmp/logs",
    size_bytes := 0, file_count := 2, safety := "Safe", reason := "",
    files := [{ path := "/tmp/logs/a.log", size_bytes := 7, modified := none },
              { path := "/tmp/logs/gone.log", size_bytes := 5, modified := none }] }

/-- A state owning only the first of the two files of itemMixed. -/
def stMixed : SysState :=
  { fs := [("/tmp/logs/a.log", 3)], sessions := [], logs := [],
    cache := cacheEmpty, baseDirs := false }

/-- An already-restored manifest with one successful item. -/
def manifestRestored : CleanManifestE :=
  { session_id := "2024-01-01T00-00-00", timestamp := 0, profile := "default",
    mode := "soft_delete", total_bytes := 7, total_files := 1,
    expires_at := some 604800, restored := true,
    items := [{ original_path := "/tmp/x", staged_path := some "/stage/000001",
                size_bytes := 7, category := "Logs", safety := "Safe",
                is_dir := false, success := true, error := none }],
    errors := [] }

/-- A not-yet-restored manifest with one restorable item whose original
path is occupied again. -/
def manifestBlocked : CleanManifestE :=
  { manifestRestored with restored := false }

/-- A filesystem where both the staged object and the original exist, so a
restore would overwrite. -/
def fsBlocked : FS := [("/stage/000001", 1), ("/tmp/x", 2)]

/-- The perceptually similar group the detector forms from the three
fingerprints at maximum distance one. -/
def gSimilarW : SimilarGroupE :=
  { members := [{ path := "/p/a.jpg", size_bytes := 900, similarity := 1 },
                { path := "/p/b.jpg", size_bytes := 700, similarity := (255 : Rat)/256 }],
    wasted_bytes := 700,
    match_type := MatchTypeE.perceptuallySimilar }

/-- The report restore_session produces on manifestBlocked over
fsBlocked: nothing restored, one per-item overwrite refusal. -/
def reportBlocked : RestoreReportE :=
  { session_id := "2024-01-01T00-00-00", restored_count := 0,
    restored_bytes := 0,
    errors := ["Failed to restore /tmp/x: Original path already exists (will not overwrite): /tmp/x"] }

/-- The candidate-project tree of the stale-dependency scenario: a search
root Projects containing project myapp, whose node_modules sits one level
below the project root and whose package.json is forty days old. -/
def myappChildren : FForest :=
  FForest.cons
    (FNode.dir "node_modules" 0
      (FForest.cons (FNode.file "lodash.js" 4096 0) FForest.nil))
    (FForest.cons (FNode.file "package.json" 120 0) FForest.nil)

/-- The Projects search root around myapp. -/
def projectsTree : FNode :=
  FNode.dir "Projects" 0 (FForest.cons (FNode.dir "myapp" 0 myappChildren) FForest.nil)

/-- A walk target with a two-day minimum age and no extension filter. -/
def targetAged : ScanTargetE :=
  { name := "old logs", downloadedDmg := false, recursive := true,
    min_age_days := some 2 }

/-- A walk entry whose age at time 200000 is exactly two days. -/
def entryBoundary : WalkEntryE :=
  { path := "/tmp/logs/exact.log", isDir := false, ext := some "log",
    size_bytes := 512, modified := some (200000 - 2 * 86400) }

/-- A walk entry one second younger than the two-day threshold. -/
def entryYoung : WalkEntryE :=
  { path := "/tmp/logs/young.log", isDir := false, ext := some "log",
    size_bytes := 512, modified := some (200000 - 2 * 86400 + 1) }

/-- Two byte-identical files and one different file, the duplicate funnel
example of the spec. -/
def fileA : FileM := { path := "/d/a.txt", content := [104, 101, 108, 108, 111] }

/-- Second copy of the identical content. -/
def fileB : FileM := { path := "/d/b.txt", content := [104, 101, 108, 108, 111] }

/-- A shorter, different file. -/
def fileC : FileM := { path := "/d/c.txt", content := [104, 105] }

/-- A list-append model of a streaming hasher used to instantiate the
abstract hash parameters in witnesses. -/
def appendHash (s a : List Nat) : List Nat := s ++ a

/-- Two perceptual fingerprints at Hamming distance one, and one far
fingerprint. -/
def phashNear1 : PerceptualHashE :=
  { path := "/p/a.jpg", hash := [true, true, true, true], size_bytes := 900 }

/-- The second nearby fingerprint. -/
def phashNear2 : PerceptualHashE :=
  { path := "/p/b.jpg", hash := [true, true, true, false], size_bytes := 700 }

/-- The distant fingerprint. -/
def phashFar : PerceptualHashE :=
  { path := "/p/c.jpg", hash := [false, false, false, false], size_bytes := 800 }

/-! ## Helper lemmas -/

theorem find?_isSome_of_exists {α : Type} {l : List α} {p : α → Bool}
    (h : ∃ x ∈ l, p x) : (l.find? p).isSome :=
  List.find?_isSome.mpr h

theorem clean_cache_eq (home : Option String) (now : Nat) (sid : String)
    (rd : Nat) (profile : String) (items : List ScanItemE)
    (mode : CleanModeE) (st : SysState) :
    (clean home now sid rd profile items mode st).2.cache = st.cache := by
  unfold clean
  cases hfi : items.find? (fun it =>
      is_protected home it.path
      || it.files.any (fun f => is_protected home f.path)) with
  | some it => rfl
  | none =>
    cases mode with
    | dryRun => rfl
    | softDelete => simp [stage_files, manifestSave]
    | hardDelete => simp [manifestSave]

/-! ## C2: the safety gate set (corrected) -/

/-- C2, counterexample: the claim says is_protected is false on every
strict subpath of a protected path, but the Library subdirectory of the
protected home directory is itself such a strict subpath and is
protected. -/
theorem is_protected_strict_subpath_true :
    is_protected (some "/Users/test") "/Users/test" = true
    ∧ ("/Users/test" ++ "/Library" : String) = "/Users/test/Library"
    ∧ ("/Users/test/Library" : String) ≠ "/Users/test"
    ∧ is_protected (some "/Users/test") "/Users/test/Library" = true := by
  refine ⟨by decide, by decide, by decide, by decide⟩

/-- C2, amended: is_protected is true exactly on the members of the fixed
protected set (system roots, the home directory, and the listed home
subdirectories); every path outside that set — in particular a strict
subpath of a protected path that is not itself listed, such as
home/Library/Caches — is not protected. -/
theorem is_protected_iff_protected_set (h p : String) :
    (is_protected (some h) p = true ↔ p ∈ protectedSetSpec h)
    ∧ (p ∉ protectedSetSpec h → is_protected (some h) p = false)
    ∧ is_protected (some "/Users/test") "/Users/test/Library/Caches" = false := by
  have main : is_protected (some h) p = true ↔ p ∈ protectedSetSpec h := by
    simp only [is_protected, protectedSetSpec, Bool.or_eq_true, List.any_eq_true,
      beq_iff_eq, List.mem_append, List.mem_map, List.mem_singleton]
    constructor
    · rintro (⟨x, hx, rfl⟩ | rfl | ⟨d, hd, rfl⟩)
      · exact Or.inl (Or.inl hx)
      · exact Or.inl (Or.inr rfl)
      · exact Or.inr ⟨d, hd, rfl⟩
    · rintro ((hx | rfl) | ⟨d, hd, rfl⟩)
      · exact Or.inl ⟨p, hx, rfl⟩
      · exact Or.inr (Or.inl rfl)
      · exact Or.inr (Or.inr ⟨d, hd, rfl⟩)
  refine ⟨main, ?_, by decide⟩
  intro hn
  cases hb : is_protected (some h) p with
  | false => rfl
  | true => exact absurd (main.mp hb) hn

/-- Witness for the amended C2 theorem at a concrete home and path. -/
theorem is_protected_iff_protected_set_witness :
    ("/tmp/foo" ∉ protectedSetSpec "/Users/test")
    ∧ is_protected (some "/Users/test") "/tmp/foo" = false :=
  ⟨by decide, (is_protected_iff_protected_set "/Users/test" "/tmp/foo").2.1 (by decide)⟩

/-! ## C1: the safety gate aborts clean before any mutation (confirmed) -/

/-- C1: in every mode, when any candidate path (an item path or a file
entry path) is protected, clean returns an error and neither moves nor
removes a filesystem object, creates no staging session directory, and
appends nothing to the logs. -/
theorem clean_protected_aborts (home : Option String) (now : Nat)
    (sid : String) (rd : Nat) (profile : String) (items : List ScanItemE)
    (mode : CleanModeE) (st : SysState)
    (hp : ∃ it ∈ items, is_protected home it.path = true
          ∨ ∃ f ∈ it.files, is_protected home f.path = true) :
    (∃ e, (clean home now sid rd profile items mode st).1 = Except.error e)
    ∧ (clean home now sid rd profile items mode st).2.fs = st.fs
    ∧ (clean home now sid rd profile items mode st).2.sessions = st.sessions
    ∧ (clean home now sid rd profile items mode st).2.logs = st.logs := by
  cases hfi : items.find? (fun it =>
      is_protected home it.path
      || it.files.any (fun f => is_protected home f.path)) with
  | none =>
    exfalso
    rw [List.find?_eq_none] at hfi
    obtain ⟨it, hmem, hcase⟩ := hp
    have hnot := hfi it hmem
    simp only [Bool.or_eq_true, List.any_eq_true, not_or] at hnot
    rcases hcase with h1 | ⟨f, hf, h2⟩
    · exact hnot.1 h1
    · exact hnot.2 ⟨f, hf, h2⟩
  | some it =>
    unfold clean
    rw [hfi]
    exact ⟨⟨_, rfl⟩, rfl, rfl, rfl⟩

/-- Witness for C1: a soft-delete clean whose single candidate is the
protected /System path errors out and leaves the state untouched. -/
theorem clean_protected_aborts_witness :
    (∃ e, (clean none 0 "S1" 7 "default" [itemSystem] CleanModeE.softDelete
        stSystem).1 = Except.error e)
    ∧ (clean none 0 "S1" 7 "default" [itemSystem] CleanModeE.softDelete
        stSystem).2.fs = stSystem.fs
    ∧ (clean none 0 "S1" 7 "default" [itemSystem] CleanModeE.softDelete
        stSystem).2.sessions = stSystem.sessions
    ∧ (clean none 0 "S1" 7 "default" [itemSystem] CleanModeE.softDelete
        stSystem).2.logs = stSystem.logs :=
  clean_protected_aborts none 0 "S1" 7 "default" [itemSystem]
    CleanModeE.softDelete stSystem
    ⟨itemSystem, by decide, Or.inl (by decide)⟩

/-! ## C3: bulk thresholds are never consulted by clean (code bug) -/

/-- C3: the bulk validator rejects a candidate set one byte above the
50 GiB warning threshold, yet a soft-delete clean of exactly that set
succeeds and mutates the filesystem — clean never invokes
validate_clean_operation, so the documented abort does not happen. -/
theorem clean_ignores_bulk_thresholds :
    (validate_clean_operation 1 53687091201).isOk = false
    ∧ (clean none 0 "S3" 7 "default" [itemHuge] CleanModeE.softDelete
        stHuge).1.isOk = true
    ∧ (clean none 0 "S3" 7 "default" [itemHuge] CleanModeE.softDelete
        stHuge).2.sessions = ["S3"]
    ∧ fsExists (clean none 0 "S3" 7 "default" [itemHuge] CleanModeE.softDelete
        stHuge).2.fs "/tmp/bigfile" = false := by
  refine ⟨by decide, by decide, by decide, by decide⟩

/-! ## C4: the stale node_modules scanner cannot find nested
node_modules (code bug) -/

/-- C4: in a search root holding a project whose node_modules sits one
level below it and whose package.json is stale (forty days old against a
thirty-day threshold), find_node_modules returns nothing: its
filter_entry predicate refuses every node_modules entry below the root
before the name test can see it, so the claimed inclusion fails. -/
theorem find_node_modules_misses_nested :
    find_node_modules [("/Users/test/Projects", projectsTree)] 30 (40 * 86400) = []
    ∧ findChildMtime myappChildren "package.json" = some 0
    ∧ 30 * 86400 < 40 * 86400 - 0
    ∧ fnmPred "node_modules" 2 = false := by
  refine ⟨by decide, by decide, by decide, by decide⟩

/-! ## C5: clean leaves the scan cache entry in place (corrected) -/

/-- C5, counterexample: a hard-delete clean removes the directory behind
a cached entry, succeeds, and afterwards the cache still contains the
entry for that path — the engine never calls invalidate, so the entry is
not dropped as claimed. -/
theorem clean_keeps_cache_entry :
    (clean none 9 "S5" 7 "default" [itemCached] CleanModeE.hardDelete
        stCached).1.isOk = true
    ∧ fsExists (clean none 9 "S5" 7 "default" [itemCached] CleanModeE.hardDelete
        stCached).2.fs "/tmp/cachedir" = false
    ∧ (clean none 9 "S5" 7 "default" [itemCached] CleanModeE.hardDelete
        stCached).2.cache.entries
        = [("/tmp/cachedir", entryCached)] := by
  refine ⟨by decide, by decide, by decide⟩

/-- C5, amended: clean never touches the scan cache, so the entry for a
removed directory remains; a later lookup for that path is nevertheless
not a hit, because reading the directory mtime fails and check returns a
miss without consulting the entry. -/
theorem clean_cache_untouched_and_lookup_misses (home : Option String)
    (now : Nat) (sid : String) (rd : Nat) (profile : String)
    (items : List ScanItemE) (mode : CleanModeE) (st : SysState) (p : String)
    (hremoved : fsMtime (clean home now sid rd profile items mode st).2.fs p = none) :
    (clean home now sid rd profile items mode st).2.cache = st.cache
    ∧ scanCacheCheck (clean home now sid rd profile items mode st).2.cache p
        (fsMtime (clean home now sid rd profile items mode st).2.fs p)
      = (none, (clean home now sid rd profile items mode st).2.cache) := by
  refine ⟨clean_cache_eq home now sid rd profile items mode st, ?_⟩
  rw [hremoved]
  rfl

/-- Witness for the amended C5 theorem: after the hard-delete clean of
the cached directory, its mtime is unreadable and the lookup misses while
the cache is unchanged. -/
theorem clean_cache_untouched_witness :
    (fsMtime (clean none 9 "S5w" 7 "default" [itemCached] CleanModeE.hardDelete
        stCached).2.fs "/tmp/cachedir" = none)
    ∧ (clean none 9 "S5w" 7 "default" [itemCached] CleanModeE.hardDelete
        stCached).2.cache = stCached.cache
    ∧ scanCacheCheck (clean none 9 "S5w" 7 "default" [itemCached]
        CleanModeE.hardDelete stCached).2.cache "/tmp/cachedir"
        (fsMtime (clean none 9 "S5w" 7 "default" [itemCached]
          CleanModeE.hardDelete stCached).2.fs "/tmp/cachedir")
      = (none, (clean none 9 "S5w" 7 "default" [itemCached]
          CleanModeE.hardDelete stCached).2.cache) :=
  ⟨by decide,
   (clean_cache_untouched_and_lookup_misses none 9 "S5w" 7 "default"
     [itemCached] CleanModeE.hardDelete stCached "/tmp/cachedir" (by decide)).1,
   (clean_cache_untouched_and_lookup_misses none 9 "S5w" 7 "default"
     [itemCached] CleanModeE.hardDelete stCached "/tmp/cachedir" (by decide)).2⟩

/-! ## C7: restore refusals (confirmed) -/

theorem restoreLoop_count (its : List ManifestItemE) :
    ∀ (c b : Nat) (es : List String) (fs : FS),
      (restoreLoop its c b es fs).1 + (restoreLoop its c b es fs).2.2.1.length
        = c + es.length + its.length := by
  induction its with
  | nil => intro c b es fs; simp [restoreLoop]
  | cons i rest ih =>
    intro c b es fs
    cases hr : restore_single_path (i.staged_path.getD "") i.original_path fs with
    | ok fs' =>
      simp only [restoreLoop, hr]
      rw [ih]
      simp only [List.length_cons]
      omega
    | error e =>
      simp only [restoreLoop, hr]
      rw [ih]
      simp only [List.length_append, List.length_cons, List.length_nil]
      omega

/-- C7: restore_session refuses an already-restored manifest and changes
neither the filesystem nor the manifest; a single item whose original
path is occupied again fails without overwriting; and a successful run
processes every restorable item, each one either counted as restored or
reported as an error, and marks the manifest restored. -/
theorem restore_session_props :
    (∀ (m : CleanManifestE) (fs : FS), m.restored = true →
      ∃ e, restore_session m fs = (Except.error e, fs, m))
    ∧ (∀ (staged original : String) (fs : FS), fsExists fs original = true →
      ∃ e, restore_single_path staged original fs = Except.error e)
    ∧ (∀ (m : CleanManifestE) (fs : FS) (r : RestoreReportE),
        (restore_session m fs).1 = Except.ok r →
        r.restored_count + r.errors.length
          = (m.items.filter (fun i => i.success && i.staged_path.isSome)).length
        ∧ (restore_session m fs).2.2.restored = true) := by
  refine ⟨?_, ?_, ?_⟩
  · intro m fs h
    simp [restore_session, h]
  · intro staged original fs h
    by_cases hs : fsExists fs staged = true
    · refine ⟨"Original path already exists (will not overwrite): " ++ original, ?_⟩
      simp [restore_single_path, hs, h]
    · refine ⟨"Staged file no longer exists: " ++ staged, ?_⟩
      simp [restore_single_path, hs]
  · intro m fs r hok
    by_cases hr : m.restored = true
    · simp [restore_session, hr] at hok
    · have hr' : m.restored = false := by simpa using hr
      by_cases he : (m.items.filter (fun i => i.success && i.staged_path.isSome)).isEmpty = true
      · simp [restore_session, hr', he] at hok
      · have he' : (m.items.filter
            (fun i => i.success && i.staged_path.isSome)).isEmpty = false := by
          simpa using he
        refine ⟨?_, by simp [restore_session, hr', he']⟩
        simp only [restore_session, hr', he', Bool.false_eq_true, if_false] at hok
        rw [Except.ok.injEq] at hok
        subst hok
        have hcount := restoreLoop_count
          (m.items.filter (fun i => i.success && i.staged_path.isSome)) 0 0 [] fs
        simpa using hcount

/-- Witness for C7: the already-restored manifest is refused with no
change, the occupied original path is refused per item, and the blocked
restore run reports its one restorable item as one error with the
manifest marked restored. -/
theorem restore_session_props_witness :
    (∃ e, restore_session manifestRestored fsBlocked
        = (Except.error e, fsBlocked, manifestRestored))
    ∧ (∃ e, restore_single_path "/stage/000001" "/tmp/x" fsBlocked
        = Except.error e)
    ∧ (reportBlocked.restored_count + reportBlocked.errors.length
        = (manifestBlocked.items.filter
            (fun i => i.success && i.staged_path.isSome)).length
      ∧ (restore_session manifestBlocked fsBlocked).2.2.restored = true) :=
  ⟨restore_session_props.1 manifestRestored fsBlocked (by decide),
   restore_session_props.2.1 "/stage/000001" "/tmp/x" fsBlocked (by decide),
   restore_session_props.2.2 manifestBlocked fsBlocked reportBlocked rfl⟩

/-! ## C9: the minimum-age boundary (confirmed) -/

/-- C9: with a minimum age of N days, the walker loop keeps a regular
file that passes the extension filter exactly when its age, now minus
mtime, is at least N times 86400 seconds — a file exactly at the
threshold is kept — and every kept entry appears in the collected file
list. -/
theorem walker_min_age_boundary (t : ScanTargetE) (now : Nat)
    (entries : List WalkEntryE) (N : Nat) (hN : t.min_age_days = some N) :
    (∀ e : WalkEntryE, e.isDir = false → dmgPass t e = true →
      ∀ m, e.modified = some m →
        (keepEntry t now e = true ↔ N * 86400 ≤ now - m))
    ∧ (∀ e ∈ entries, keepEntry t now e = true →
        ({ path := e.path, size_bytes := e.size_bytes, modified := e.modified } : FileEntryE)
          ∈ walkFiles t now entries) := by
  constructor
  · intro e hdir hdmg m hm
    simp only [keepEntry, hdir, hdmg, hN, hm, Bool.not_true, Bool.false_eq_true,
      if_false]
    by_cases hlt : now - m < N * 86400
    · rw [if_pos hlt]
      simp only [Bool.false_eq_true, false_iff]
      omega
    · rw [if_neg hlt]
      exact ⟨fun _ => by omega, fun _ => rfl⟩
  · intro e he hk
    simp only [walkFiles, List.mem_map]
    exact ⟨e, List.mem_filter.mpr ⟨he, hk⟩, rfl⟩

/-- Witness for C9 at a two-day threshold over one boundary-age entry and
one slightly younger entry. -/
theorem walker_min_age_boundary_witness :
    ((∀ e : WalkEntryE, e.isDir = false → dmgPass targetAged e = true →
      ∀ m, e.modified = some m →
        (keepEntry targetAged 200000 e = true ↔ 2 * 86400 ≤ 200000 - m))
    ∧ (∀ e ∈ [entryBoundary, entryYoung], keepEntry targetAged 200000 e = true →
        ({ path := e.path, size_bytes := e.size_bytes, modified := e.modified } : FileEntryE)
          ∈ walkFiles targetAged 200000 [entryBoundary, entryYoung])) :=
  walker_min_age_boundary targetAged 200000 [entryBoundary, entryYoung] 2 (by decide)

/-! ## C10: manifest totals count exactly the successful items (confirmed) -/

theorem addItem_items (m : CleanManifestE) (it : ManifestItemE) :
    (addItem m it).items = m.items ++ [it] := by
  by_cases hs : it.success = true <;> simp [addItem, hs]

theorem addItem_totalsOk {m : CleanManifestE} (h : manifestTotalsOk m)
    (it : ManifestItemE) : manifestTotalsOk (addItem m it) := by
  obtain ⟨h1, h2⟩ := h
  cases hs : it.success with
  | false =>
    constructor <;>
      simp [addItem, hs, List.filter_append, h1, h2]
  | true =>
    constructor <;>
      simp [addItem, hs, List.filter_append, h1, h2]

theorem addError_totalsOk {m : CleanManifestE} (h : manifestTotalsOk m)
    (e : String) : manifestTotalsOk (addError m e) := h

theorem stageLoop_totalsOk (ts : List (String × Nat × String × String)) :
    ∀ (fd : String) (c : Nat) (m : CleanManifestE) (fs : FS),
      manifestTotalsOk m → manifestTotalsOk (stageLoop fd c ts m fs).1 := by
  induction ts with
  | nil => intro fd c m fs h; exact h
  | cons t rest ih =>
    intro fd c m fs h
    simp only [stageLoop]
    cases herr : (stageOne fd c t fs).1.error with
    | none => exact ih fd (c + 1) _ _ (addItem_totalsOk h _)
    | some e => exact ih fd (c + 1) _ _ (addError_totalsOk (addItem_totalsOk h _) e)

theorem hardLoop_totalsOk (ts : List (String × Nat × String × String)) :
    ∀ (m : CleanManifestE) (fs : FS),
      manifestTotalsOk m → manifestTotalsOk (hardLoop ts m fs).1 := by
  induction ts with
  | nil => intro m fs h; exact h
  | cons t rest ih =>
    intro m fs h
    simp only [hardLoop]
    exact ih _ _ (addItem_totalsOk h _)

theorem stageLoop_items_length (ts : List (String × Nat × String × String)) :
    ∀ (fd : String) (c : Nat) (m : CleanManifestE) (fs : FS),
      (stageLoop fd c ts m fs).1.items.length = m.items.length + ts.length := by
  induction ts with
  | nil => intro fd c m fs; simp [stageLoop]
  | cons t rest ih =>
    intro fd c m fs
    simp only [stageLoop]
    cases herr : (stageOne fd c t fs).1.error with
    | none =>
      rw [ih]
      simp only [addItem_items, List.length_append, List.length_cons,
        List.length_singleton, List.length_nil]
      omega
    | some e =>
      rw [ih]
      simp only [addError, addItem_items, List.length_append, List.length_cons,
        List.length_singleton, List.length_nil]
      omega

theorem hardLoop_items_length (ts : List (String × Nat × String × String)) :
    ∀ (m : CleanManifestE) (fs : FS),
      (hardLoop ts m fs).1.items.length = m.items.length + ts.length := by
  induction ts with
  | nil => intro m fs; simp [hardLoop]
  | cons t rest ih =>
    intro m fs
    simp only [hardLoop]
    rw [ih]
    simp only [addItem_items, List.length_append, List.length_cons,
      List.length_singleton, List.length_nil]
    omega

theorem manifestNew_totalsOk (profile mode : String) (rd now : Nat)
    (sid : String) : manifestTotalsOk (manifestNew profile mode rd now sid) := by
  constructor <;> simp [manifestNew]

/-- C10: every manifest a soft- or hard-delete clean appends to the daily
log has total_files equal to the number of items whose success flag is
true and total_bytes equal to the sum of the sizes of exactly those
items, while one item is recorded for every clean target, successful or
not. -/
theorem clean_manifest_totals (home : Option String) (now : Nat)
    (sid : String) (rd : Nat) (profile : String) (items : List ScanItemE)
    (mode : CleanModeE) (st : SysState)
    (hm : mode = CleanModeE.softDelete ∨ mode = CleanModeE.hardDelete)
    (hok : ∃ r, (clean home now sid rd profile items mode st).1 = Except.ok r) :
    ∃ m, (clean home now sid rd profile items mode st).2.logs = m :: st.logs
      ∧ manifestTotalsOk m
      ∧ m.items.length = (cleanTargets items).length := by
  cases hfi : items.find? (fun it =>
      is_protected home it.path
      || it.files.any (fun f => is_protected home f.path)) with
  | some it =>
    obtain ⟨r, hr⟩ := hok
    unfold clean at hr
    rw [hfi] at hr
    exact absurd hr (by simp)
  | none =>
    rcases hm with rfl | rfl
    · unfold clean
      rw [hfi]
      simp only [stage_files, manifestSave]
      refine ⟨_, rfl, ?_, ?_⟩
      · exact stageLoop_totalsOk _ _ _ _ _
          (manifestNew_totalsOk profile "soft_delete" rd now sid)
      · rw [stageLoop_items_length]
        simp [manifestNew]
    · unfold clean
      rw [hfi]
      simp only [manifestSave]
      refine ⟨_, rfl, ?_, ?_⟩
      · exact hardLoop_totalsOk _ _ _
          (manifestNew_totalsOk profile "hard_delete" 0 now sid)
      · rw [hardLoop_items_length]
        simp [manifestNew]

/-- Witness for C10: the mixed soft-delete clean (one stageable file, one
missing file) logs a manifest with both items recorded and totals drawn
from the successful one only. -/
theorem clean_manifest_totals_witness :
    ∃ m, (clean none 0 "S10" 7 "default" [itemMixed] CleanModeE.softDelete
        stMixed).2.logs = m :: stMixed.logs
      ∧ manifestTotalsOk m
      ∧ m.items.length = (cleanTargets [itemMixed]).length :=
  clean_manifest_totals none 0 "S10" 7 "default" [itemMixed]
    CleanModeE.softDelete stMixed (Or.inl rfl) ⟨_, rfl⟩

/-! ## C8: quick and full hashes (confirmed) -/

theorem chunks1M_flatten (l : List Nat) : (chunks1M l).flatten = l := by
  generalize hn : l.length = n
  induction n using Nat.strong_induction_on generalizing l with
  | _ n ih =>
    by_cases h : l = []
    · subst h; simp [chunks1M]
    · rw [chunks1M, dif_neg h, List.flatten_cons,
        ih (l.drop 1048576).length ?_ _ rfl]
      · exact List.take_append_drop _ _
      · subst hn
        have hpos := List.length_pos.mpr h
        simp only [List.length_drop]
        omega

theorem foldl_update_flatten {σ : Type} (update : σ → List Nat → σ)
    (hnil : ∀ s, update s [] = s)
    (hupd : ∀ s a b, update (update s a) b = update s (a ++ b)) :
    ∀ (cs : List (List Nat)) (s : σ), cs.foldl update s = update s cs.flatten := by
  intro cs
  induction cs with
  | nil => intro s; simp [hnil]
  | cons c rest ih =>
    intro s
    simp only [List.foldl_cons, List.flatten_cons]
    rw [ih, hupd]

/-- C8: for any streaming hash whose update ignores empty input and
concatenates chunks, quick_hash hashes exactly the first 4096 bytes of
the content (all of it when shorter) and full_hash hashes exactly the
whole content despite the 1 MiB chunked read loop; files with equal
content therefore receive equal quick hashes and equal full hashes. -/
theorem hasher_full_and_quick {σ : Type} (update : σ → List Nat → σ)
    (init : σ) (finalize : σ → List Nat)
    (hnil : ∀ s, update s [] = s)
    (hupd : ∀ s a b, update (update s a) b = update s (a ++ b))
    (f g : FileM) :
    quick_hash update init finalize f
      = finalize (update init (f.content.take 4096))
    ∧ full_hash update init finalize f = finalize (update init f.content)
    ∧ (f.content = g.content →
        quick_hash update init finalize f = quick_hash update init finalize g
        ∧ full_hash update init finalize f = full_hash update init finalize g) := by
  refine ⟨rfl, ?_, ?_⟩
  · unfold full_hash
    rw [foldl_update_flatten update hnil hupd, chunks1M_flatten]
  · intro hc
    constructor
    · unfold quick_hash; rw [hc]
    · unfold full_hash; rw [hc]

/-- Witness for C8 with the list-append hasher on the two identical
files. -/
theorem hasher_full_and_quick_witness :
    quick_hash appendHash [] id fileA
      = id (appendHash [] (fileA.content.take 4096))
    ∧ full_hash appendHash [] id fileA = id (appendHash [] fileA.content)
    ∧ (quick_hash appendHash [] id fileA = quick_hash appendHash [] id fileB
      ∧ full_hash appendHash [] id fileA = full_hash appendHash [] id fileB) :=
  have H := hasher_full_and_quick appendHash [] id
    (fun s => by simp [appendHash])
    (fun s a b => by simp [appendHash])
    fileA fileB
  ⟨H.1, H.2.1, H.2.2 rfl⟩

/-! ## C6: duplicate group invariants (confirmed) -/

theorem mem_insertBySizeDesc {x a : SimilarFileE} {l : List SimilarFileE} :
    x ∈ insertBySizeDesc a l ↔ x = a ∨ x ∈ l := by
  induction l with
  | nil => simp [insertBySizeDesc]
  | cons b t ih =>
    simp only [insertBySizeDesc]
    by_cases hc : b.size_bytes < a.size_bytes
    · rw [if_pos hc]
      simp [List.mem_cons]
    · rw [if_neg hc]
      simp only [List.mem_cons, ih]
      tauto

theorem pairwise_insertBySizeDesc {a : SimilarFileE} {l : List SimilarFileE}
    (h : l.Pairwise (fun x y => y.size_bytes ≤ x.size_bytes)) :
    (insertBySizeDesc a l).Pairwise (fun x y => y.size_bytes ≤ x.size_bytes) := by
  induction l with
  | nil => simp [insertBySizeDesc]
  | cons b t ih =>
    rcases List.pairwise_cons.mp h with ⟨hb, ht⟩
    simp only [insertBySizeDesc]
    by_cases hc : b.size_bytes < a.size_bytes
    · rw [if_pos hc]
      refine List.pairwise_cons.mpr ⟨?_, h⟩
      intro y hy
      rcases List.mem_cons.mp hy with rfl | hyt
      · exact Nat.le_of_lt hc
      · exact Nat.le_trans (hb y hyt) (Nat.le_of_lt hc)
    · rw [if_neg hc]
      refine List.pairwise_cons.mpr ⟨?_, ih ht⟩
      intro y hy
      rcases mem_insertBySizeDesc.mp hy with rfl | hyt
      · exact Nat.le_of_not_lt hc
      · exact hb y hyt

theorem pairwise_sortBySizeDesc (l : List SimilarFileE) :
    (sortBySizeDesc l).Pairwise (fun x y => y.size_bytes ≤ x.size_bytes) := by
  induction l with
  | nil => simp [sortBySizeDesc]
  | cons a t ih =>
    simpa [sortBySizeDesc] using pairwise_insertBySizeDesc ih

theorem length_insertBySizeDesc (a : SimilarFileE) (l : List SimilarFileE) :
    (insertBySizeDesc a l).length = l.length + 1 := by
  induction l with
  | nil => rfl
  | cons b t ih =>
    simp only [insertBySizeDesc]
    by_cases hc : b.size_bytes < a.size_bytes
    · rw [if_pos hc]; simp
    · rw [if_neg hc]; simp [ih]

theorem length_sortBySizeDesc (l : List SimilarFileE) :
    (sortBySizeDesc l).length = l.length := by
  induction l with
  | nil => rfl
  | cons a t ih =>
    simp [sortBySizeDesc, length_insertBySizeDesc] at ih ⊢
    exact ih

theorem headD_max_of_pairwise {l : List SimilarFileE}
    (h : l.Pairwise (fun x y => y.size_bytes ≤ x.size_bytes)) :
    ∀ m ∈ l, m.size_bytes ≤ (l.headD memberDefault).size_bytes := by
  cases l with
  | nil => intro m hm; cases hm
  | cons a t =>
    intro m hm
    rcases List.mem_cons.mp hm with rfl | hmt
    · exact Nat.le_refl _
    · exact (List.pairwise_cons.mp h).1 m hmt

theorem sortedGroup_invariant (ms : List SimilarFileE) (mt : MatchTypeE)
    (h2 : 2 ≤ ms.length) :
    groupInvariant { members := sortBySizeDesc ms,
                     wasted_bytes := sumSizes ((sortBySizeDesc ms).drop 1),
                     match_type := mt } := by
  refine ⟨?_, pairwise_sortBySizeDesc ms,
    headD_max_of_pairwise (pairwise_sortBySizeDesc ms), rfl⟩
  simpa [length_sortBySizeDesc] using h2

theorem mkExactGroup_invariant {paths : List FileM} (h2 : 2 ≤ paths.length) :
    groupInvariant (mkExactGroup paths) := by
  unfold mkExactGroup
  exact sortedGroup_invariant _ _ (by simpa using h2)

theorem mem_insertByWastedDesc {x a : SimilarGroupE} {l : List SimilarGroupE} :
    x ∈ insertByWastedDesc a l ↔ x = a ∨ x ∈ l := by
  induction l with
  | nil => simp [insertByWastedDesc]
  | cons b t ih =>
    simp only [insertByWastedDesc]
    by_cases hc : b.wasted_bytes < a.wasted_bytes
    · rw [if_pos hc]
      simp [List.mem_cons]
    · rw [if_neg hc]
      simp only [List.mem_cons, ih]
      tauto

theorem mem_sortByWastedDesc {x : SimilarGroupE} {l : List SimilarGroupE} :
    x ∈ sortByWastedDesc l ↔ x ∈ l := by
  induction l with
  | nil => simp [sortByWastedDesc]
  | cons a t ih =>
    simp [sortByWastedDesc, mem_insertByWastedDesc] at ih ⊢
    tauto

theorem mem_retainMulti {κ α : Type} {kv : κ × List α} {g : List (κ × List α)}
    (h : kv ∈ retainMulti g) : kv ∈ g ∧ 1 < kv.2.length := by
  have hm := List.mem_filter.mp h
  exact ⟨hm.1, by simpa using hm.2⟩

theorem similarSweep_invariant (d : Nat) (hs : List PerceptualHashE) :
    ∀ g ∈ similarSweep d hs, groupInvariant g := by
  generalize hn : hs.length = n
  induction n using Nat.strong_induction_on generalizing hs with
  | _ n ih =>
    match hs, hn with
    | [], hn =>
      intro g hg
      simp [similarSweep] at hg
    | h :: rest, hn =>
      intro g hg
      rw [similarSweep] at hg
      by_cases hne : (rest.filter
          (fun j => decide (hammingDist h.hash j.hash ≤ d))).isEmpty
      · rw [if_pos hne] at hg
        exact ih rest.length (by simp [← hn]) rest rfl g hg
      · rw [if_neg hne] at hg
        rcases List.mem_cons.mp hg with rfl | htail
        · apply sortedGroup_invariant
          have : ¬ (rest.filter
              (fun j => decide (hammingDist h.hash j.hash ≤ d))) = [] := by
            simpa [List.isEmpty_iff] using hne
          rcases List.exists_cons_of_ne_nil this with ⟨y, ys, hys⟩
          simp only [hys, List.length_cons, List.length_map]
          omega
        · have hle := List.length_filter_le
            (fun j => !(decide (hammingDist h.hash j.hash ≤ d))) rest
          have hn' : rest.length + 1 = n := by simpa using hn
          exact ih (rest.filter
              (fun j => !(decide (hammingDist h.hash j.hash ≤ d)))).length
            (by omega) _ rfl g htail

/-- C6: every group the duplicate detector returns, exact or perceptually
similar, has at least two members, members sorted by size descending with
the keeper of maximum size first, and wasted bytes equal to the sum of
the sizes of all members except the first. -/
theorem duplicate_group_invariants {σ : Type} (update : σ → List Nat → σ)
    (init : σ) (finalize : σ → List Nat) (all_files : List FileM)
    (perceptual : Bool) (phashes : List PerceptualHashE) (maxDistance : Nat)
    (g : SimilarGroupE)
    (hg : g ∈ (find_duplicates update init finalize all_files perceptual
          phashes maxDistance).exact_groups
        ∨ g ∈ (find_duplicates update init finalize all_files perceptual
          phashes maxDistance).similar_groups) :
    groupInvariant g := by
  rcases hg with hg | hg
  · simp only [find_duplicates] at hg
    rw [mem_sortByWastedDesc] at hg
    rcases List.mem_flatMap.mp hg with ⟨grp, hgrp, hmem⟩
    rcases List.mem_map.mp hmem with ⟨kv, hkv, rfl⟩
    have hlen := (mem_retainMulti hkv).2
    exact mkExactGroup_invariant (by omega)
  · simp only [find_duplicates] at hg
    by_cases hp : perceptual = true
    · rw [if_pos hp] at hg
      have hg' := (List.mem_filter.mp hg).1
      rw [find_similar_groups, mem_sortByWastedDesc] at hg'
      exact similarSweep_invariant maxDistance phashes g hg'
    · rw [if_neg hp] at hg
      cases hg

/-- Witness for C6: the invariant instantiated on the group the detector
forms from three concrete image fingerprints at maximum distance one. -/
theorem duplicate_group_invariants_witness : groupInvariant gSimilarW :=
  duplicate_group_invariants appendHash [] id [] true
    [phashNear1, phashNear2, phashFar] 1 gSimilarW (Or.inr (by
      have d12 : hammingDist [true, true, true, true] [true, true, true, false] = 1 := by
        decide
      have d13 : hammingDist [true, true, true, true] [false, false, false, false] = 4 := by
        decide
      have sweep2 : similarSweep 1
          [{ path := "/p/c.jpg", hash := [false, false, false, false],
             size_bytes := 800 }] = [] := by
        rw [similarSweep]
        simp [similarSweep]
      have sweep1 : similarSweep 1 [phashNear1, phashNear2, phashFar]
          = [gSimilarW] := by
        rw [similarSweep]
        simp only [phashNear1, phashNear2, phashFar, List.filter_cons,
          List.filter_nil, d12, d13]
        norm_num
        refine ⟨?_, sweep2⟩
        simp [gSimilarW, d12, sortBySizeDesc, insertBySizeDesc, sumSizes]
        norm_num
      simp only [find_duplicates, find_similar_groups]
      rw [sweep1]
      simp [group_by_size, groupListBy, retainMulti, sortByWastedDesc,
        insertByWastedDesc, gSimilarW]))

end TidyMac
